import Mathlib

/-!
Character simulation (`main.cpp`): shallow embedding.

The C++ classes of `main.cpp` are embedded as Lean structures, one per class,
with inheritance expressed by `extends`.  Member functions become functions
that take the object and return the updated object.

The C++ type `int` is a 32-bit signed integer.  Signed overflow and the
dereference of an empty `std::unique_ptr` are undefined behaviour in C++; the
embedding makes both explicit: every function that can run into one of them
returns `Except Undefined _`, and `Except.error` means that the C++ program has
no defined behaviour on that input (it is not a value the program reports).
-/

namespace POO

/-! ## Machine integers -/

/-- Smallest value of the C++ type `int` (32 bits). -/
def INT_MIN : Int := -2147483648

/-- Largest value of the C++ type `int` (32 bits). -/
def INT_MAX : Int := 2147483647

/-- The two sources of undefined behaviour in `main.cpp`. -/
inductive Undefined where
  | signedOverflow
  | nullDereference
  deriving DecidableEq

/-- Outcome of a member function: the updated objects, or undefined behaviour. -/
abbrev Result (α : Type) : Type := Except Undefined α

/-- The integer `v` is representable in the type `int`. -/
abbrev InInt (v : Int) : Prop := INT_MIN ≤ v ∧ v ≤ INT_MAX

/-- The result of an `int` operation whose mathematical value is `v`: the value
itself when it is representable, undefined behaviour otherwise. -/
def checkedInt (v : Int) : Result Int :=
  if InInt v then .ok v else .error .signedOverflow

/-! ## Data model -/

/-- The enumeration `enum class Etat{NO_STATE, EMPOISONNER}`. -/
inductive Etat where
  | NO_STATE
  | EMPOISONNER
  deriving DecidableEq

/-- The aggregate `struct Coordonnee { int x; int y; }`. -/
structure Coordonnee where
  x : Int
  y : Int
  deriving DecidableEq

/-- Data members of `class Attaquable`; `mEtat` is initialised to `NO_STATE`. -/
structure Attaquable where
  mEtat : Etat := Etat.NO_STATE
  mVie : Int
  deriving DecidableEq

/-- Data members of `class Deplacable`. -/
structure Deplacable where
  mPosition : Coordonnee
  deriving DecidableEq

/-- Concrete subclasses of the abstract class `Arme`: only `EpeeEmpoisonee`. -/
inductive Arme where
  | EpeeEmpoisonee
  deriving DecidableEq

/-- Data members of `class GuerrierAbstrait`: the owning pointer `mArme`, which is
empty (`none`) after default construction. -/
structure GuerrierAbstrait where
  mArme : Option Arme := none
  deriving DecidableEq

/-- The class `Sort` (named `Sort_` here, `Sort` being a reserved word): it has no
data members. -/
structure Sort_ where
  deriving DecidableEq

/-- Data members of `class MagicienAbstrait`: `mMana` starts at 50, `mSort` is a
default-constructed `Sort`. -/
structure MagicienAbstrait where
  mMana : Int := 50
  mSort : Sort_ := {}
  deriving DecidableEq

/-- The class `PersonnageJoueur`: the bases `Attaquable` and `Deplacable` carry its
data (the other bases are interfaces without data). -/
structure PersonnageJoueur extends Attaquable, Deplacable
  deriving DecidableEq

/-- The class `Guerrier : PersonnageJoueur, GuerrierAbstrait`. -/
structure Guerrier extends PersonnageJoueur, GuerrierAbstrait
  deriving DecidableEq

/-- The class `Magicien : PersonnageJoueur, MagicienAbstrait`. -/
structure Magicien extends PersonnageJoueur, MagicienAbstrait
  deriving DecidableEq

/-- The class `MagicienGuerrier : PersonnageJoueur, MagicienAbstrait, GuerrierAbstrait`. -/
structure MagicienGuerrier extends PersonnageJoueur, MagicienAbstrait, GuerrierAbstrait
  deriving DecidableEq

/-! ## `Attaquable` and `Deplacable` -/

/-- The accessor `Attaquable::getVie`. -/
def Attaquable.getVie (a : Attaquable) : Int := a.mVie

/-- The accessor `Attaquable::getEtat`. -/
def Attaquable.getEtat (a : Attaquable) : Etat := a.mEtat

/-- The member `Attaquable::prendreDommage`: `mVie -= value; if (mVie < 0) mVie = 0;`. -/
def Attaquable.prendreDommage (a : Attaquable) (value : Int) : Result Attaquable := do
  let v ← checkedInt (a.mVie - value)
  pure { a with mVie := if v < 0 then 0 else v }

/-- The member `Attaquable::increaseVie`: `mVie += value;`. -/
def Attaquable.increaseVie (a : Attaquable) (value : Int) : Result Attaquable := do
  let v ← checkedInt (a.mVie + value)
  pure { a with mVie := v }

/-- The member `Attaquable::changerEtat`: `mEtat = etat;`. -/
def Attaquable.changerEtat (a : Attaquable) (etat : Etat) : Attaquable :=
  { a with mEtat := etat }

/-- The member `Deplacable::moveTo`: `mPosition = position;`. -/
def Deplacable.moveTo (d : Deplacable) (position : Coordonnee) : Deplacable :=
  { d with mPosition := position }

/-! ## Equipment: `Sort`, `Arme`, `EpeeEmpoisonee` -/

/-- The member `Sort::utiliserSur`: `attaquable.prendreDommage(10);`. -/
def Sort_.utiliserSur (_self : Sort_) (attaquable : Attaquable) : Result Attaquable :=
  attaquable.prendreDommage 10

/-- The member `Sort::ecrireDetails`: `stream << "Sort" << std::endl;`. -/
def Sort_.ecrireDetails (_self : Sort_) (stream : String) : String :=
  stream ++ "Sort" ++ "\n"

/-- The member `EpeeEmpoisonee::utiliserSur`:
`attaquable.prendreDommage(100); attaquable.changerEtat(Etat::EMPOISONNER);`. -/
def EpeeEmpoisonee.utiliserSur (attaquable : Attaquable) : Result Attaquable := do
  let attaquable ← attaquable.prendreDommage 100
  pure (attaquable.changerEtat Etat.EMPOISONNER)

/-- The member `EpeeEmpoisonee::ecrireDetails`:
`stream << "Epee empoisonnee" << std::endl;`. -/
def EpeeEmpoisonee.ecrireDetails (stream : String) : String :=
  stream ++ "Epee empoisonnee" ++ "\n"

/-- Virtual call `arme->utiliserSur(attaquable)` through a pointer to `Arme`. -/
def Arme.utiliserSur : Arme → Attaquable → Result Attaquable
  | .EpeeEmpoisonee, attaquable => EpeeEmpoisonee.utiliserSur attaquable

/-- Virtual call `arme->ecrireDetails(stream)` through a pointer to `Arme`. -/
def Arme.ecrireDetails : Arme → String → String
  | .EpeeEmpoisonee, stream => EpeeEmpoisonee.ecrireDetails stream

/-- The member `GuerrierAbstrait::changeArme`: `mArme = std::move(arme);`. -/
def GuerrierAbstrait.changeArme (g : GuerrierAbstrait) (arme : Option Arme) :
    GuerrierAbstrait :=
  { g with mArme := arme }

/-- The member `MagicienAbstrait::increaseMana`: `mMana += value;`. -/
def MagicienAbstrait.increaseMana (m : MagicienAbstrait) (value : Int) :
    Result MagicienAbstrait := do
  let v ← checkedInt (m.mMana + value)
  pure { m with mMana := v }

/-! ## Characters -/

/-- The constructor `PersonnageJoueur(int vie, int x, int y)`. -/
def PersonnageJoueur.new (vie x y : Int) : PersonnageJoueur :=
  { mVie := vie, mPosition := { x := x, y := y } }

/-- The member `PersonnageJoueur::ecrireDetails`. -/
def PersonnageJoueur.ecrireDetails (p : PersonnageJoueur) (stream : String) : String :=
  let stream := stream ++ "Position : " ++ toString p.mPosition.x ++ ", "
    ++ toString p.mPosition.y ++ "\n"
  let stream := if p.mEtat = Etat.EMPOISONNER then stream ++ "Empoisonnee" ++ "\n" else stream
  stream ++ "Vie : " ++ toString p.mVie ++ "\n"

/-- The constructor `Guerrier(int x, int y) : PersonnageJoueur(500, x, y)`. -/
def Guerrier.new (x y : Int) : Guerrier :=
  { PersonnageJoueur.new 500 x y with }

/-- The constructor `Magicien(int x, int y) : PersonnageJoueur(150, x, y)`. -/
def Magicien.new (x y : Int) : Magicien :=
  { PersonnageJoueur.new 150 x y with }

/-- The member `Guerrier::attaquer` on a target distinct from the warrior:
`mArme->utiliserSur(attaquable);`.  The result is the warrior and the target. -/
def Guerrier.attaquer (g : Guerrier) (attaquable : Attaquable) :
    Result (Guerrier × Attaquable) :=
  match g.mArme with
  | none => .error .nullDereference
  | some arme => do
    let attaquable ← arme.utiliserSur attaquable
    pure (g, attaquable)

/-- The call `g.attaquer(g)`: the target is the warrior's own `Attaquable` base. -/
def Guerrier.attaquerSoi (g : Guerrier) : Result Guerrier := do
  let (g, attaquable) ← g.attaquer g.toAttaquable
  pure { g with toAttaquable := attaquable }

/-- The member `Guerrier::ecrireDetails`. -/
def Guerrier.ecrireDetails (g : Guerrier) (stream : String) : Result String :=
  let stream := stream ++ "Guerrier :" ++ "\n"
  let stream := stream ++ "Arme : "
  match g.mArme with
  | none => .error .nullDereference
  | some arme =>
    let stream := arme.ecrireDetails stream
    pure (g.toPersonnageJoueur.ecrireDetails stream)

/-- The member `Magicien::attaquer` on a target distinct from the mage:
`mMana -= 10; mSort.utiliserSur(attaquable);`.  The result is the mage and the target. -/
def Magicien.attaquer (m : Magicien) (attaquable : Attaquable) :
    Result (Magicien × Attaquable) := do
  let mana ← checkedInt (m.mMana - 10)
  let m := { m with mMana := mana }
  let attaquable ← m.mSort.utiliserSur attaquable
  pure (m, attaquable)

/-- The call `m.attaquer(m)`: the target is the mage's own `Attaquable` base. -/
def Magicien.attaquerSoi (m : Magicien) : Result Magicien := do
  let (m, attaquable) ← m.attaquer m.toAttaquable
  pure { m with toAttaquable := attaquable }

/-- The member `Magicien::ecrireDetails`. -/
def Magicien.ecrireDetails (m : Magicien) (stream : String) : String :=
  let stream := stream ++ "Magicien :" ++ "\n"
  let stream := stream ++ "Sort : "
  let stream := m.mSort.ecrireDetails stream
  m.toPersonnageJoueur.ecrireDetails stream

/-! ## Consumables (visitor with one entry point per character class) -/

/-- Dynamic type of an object seen through `Consommable &`: the class `Consommable`
itself (it is not abstract) or one of its two subclasses. -/
inductive Consommable where
  | base
  | PotionDeVie
  | PotionDeMana
  deriving DecidableEq

/-- Body of `CONSOMMER_PAR(type)` in `PotionDeVie`, on the `Attaquable` base of the
argument: `attaquable.increaseVie(10); return true;`. -/
def PotionDeVie.consommerPar (attaquable : Attaquable) : Result (Bool × Attaquable) := do
  let attaquable ← attaquable.increaseVie 10
  pure (true, attaquable)

/-- Body of `CONSOMMER_PAR(type)` in `PotionDeMana`, on the `MagicienAbstrait` base of
the argument: `magicien.increaseMana(10); return true;`. -/
def PotionDeMana.consommerPar (magicien : MagicienAbstrait) :
    Result (Bool × MagicienAbstrait) := do
  let magicien ← magicien.increaseMana 10
  pure (true, magicien)

/-- Virtual call `consommable.consommerPar(Guerrier &)`.  `PotionDeMana` does not
override it, so the version of `Consommable` (`return false;`) runs. -/
def Consommable.consommerParGuerrier : Consommable → Guerrier → Result (Bool × Guerrier)
  | .base, g => pure (false, g)
  | .PotionDeVie, g => do
    let (r, attaquable) ← PotionDeVie.consommerPar g.toAttaquable
    pure (r, { g with toAttaquable := attaquable })
  | .PotionDeMana, g => pure (false, g)

/-- Virtual call `consommable.consommerPar(Magicien &)`. -/
def Consommable.consommerParMagicien : Consommable → Magicien → Result (Bool × Magicien)
  | .base, m => pure (false, m)
  | .PotionDeVie, m => do
    let (r, attaquable) ← PotionDeVie.consommerPar m.toAttaquable
    pure (r, { m with toAttaquable := attaquable })
  | .PotionDeMana, m => do
    let (r, magicien) ← PotionDeMana.consommerPar m.toMagicienAbstrait
    pure (r, { m with toMagicienAbstrait := magicien })

/-- Virtual call `consommable.consommerPar(MagicienGuerrier &)`. -/
def Consommable.consommerParMagicienGuerrier :
    Consommable → MagicienGuerrier → Result (Bool × MagicienGuerrier)
  | .base, m => pure (false, m)
  | .PotionDeVie, m => do
    let (r, attaquable) ← PotionDeVie.consommerPar m.toAttaquable
    pure (r, { m with toAttaquable := attaquable })
  | .PotionDeMana, m => do
    let (r, magicien) ← PotionDeMana.consommerPar m.toMagicienAbstrait
    pure (r, { m with toMagicienAbstrait := magicien })

/-- The member `Guerrier::nourrir`: `consommable.consommerPar(*this);`. -/
def Guerrier.nourrir (g : Guerrier) (consommable : Consommable) : Result Guerrier := do
  let (_, g) ← consommable.consommerParGuerrier g
  pure g

/-- The member `Magicien::nourrir`: `consommable.consommerPar(*this);`. -/
def Magicien.nourrir (m : Magicien) (consommable : Consommable) : Result Magicien := do
  let (_, m) ← consommable.consommerParMagicien m
  pure m

/-- The member `MagicienGuerrier::nourrir`: `consommable.consommerPar(*this);`. -/
def MagicienGuerrier.nourrir (m : MagicienGuerrier) (consommable : Consommable) :
    Result MagicienGuerrier := do
  let (_, m) ← consommable.consommerParMagicienGuerrier m
  pure m

/-! ## The scenario of `main` -/

/-- What a run of `main` leaves behind: the text written to `std::cout` and the final
values of the locals `guerrier` and `magicien`. -/
structure MainResult where
  cout : String
  guerrier : Guerrier
  magicien : Magicien
  deriving DecidableEq

/-- The function `main`, statement by statement. -/
def main : Result MainResult := do
  let guerrier := Guerrier.new 10 10
  let magicien := Magicien.new 5 5
  let guerrier := { guerrier with
    toGuerrierAbstrait := guerrier.toGuerrierAbstrait.changeArme (some Arme.EpeeEmpoisonee) }
  let cout := ""
  let cout ← guerrier.ecrireDetails cout
  let cout := cout ++ "\n"
  let cout := magicien.ecrireDetails cout
  let cout := cout ++ "\n"
  let (guerrier, cible) ← guerrier.attaquer magicien.toAttaquable
  let magicien := { magicien with toAttaquable := cible }
  let (magicien, cible) ← magicien.attaquer guerrier.toAttaquable
  let guerrier := { guerrier with toAttaquable := cible }
  let cout := cout ++ "\n"
  let cout ← guerrier.ecrireDetails cout
  let cout := cout ++ "\n"
  let cout := magicien.ecrireDetails cout
  pure { cout := cout, guerrier := guerrier, magicien := magicien }

/-! ## Sequences of public operations on one character -/

/-- A call of a public member function on a `Guerrier` object. -/
inductive GuerrierOp where
  | prendreDommage (value : Int)
  | increaseVie (value : Int)
  | changerEtat (etat : Etat)
  | moveTo (position : Coordonnee)
  | attaquer (cible : Attaquable)
  | attaquerSoi
  | nourrir (consommable : Consommable)
  | changeArme (arme : Option Arme)
  deriving DecidableEq

/-- A call of a public member function on a `Magicien` object. -/
inductive MagicienOp where
  | prendreDommage (value : Int)
  | increaseVie (value : Int)
  | changerEtat (etat : Etat)
  | moveTo (position : Coordonnee)
  | attaquer (cible : Attaquable)
  | attaquerSoi
  | nourrir (consommable : Consommable)
  | increaseMana (value : Int)
  deriving DecidableEq

/-- The warrior after one call.  For `attaquer` the target is another object, whose new
state is not part of the warrior; `attaquerSoi` is the call with the warrior as target. -/
def Guerrier.step (g : Guerrier) : GuerrierOp → Result Guerrier
  | .prendreDommage value => do
    let a ← g.toAttaquable.prendreDommage value
    pure { g with toAttaquable := a }
  | .increaseVie value => do
    let a ← g.toAttaquable.increaseVie value
    pure { g with toAttaquable := a }
  | .changerEtat etat => pure { g with toAttaquable := g.toAttaquable.changerEtat etat }
  | .moveTo position => pure { g with toDeplacable := g.toDeplacable.moveTo position }
  | .attaquer cible => do
    let (g, _) ← g.attaquer cible
    pure g
  | .attaquerSoi => g.attaquerSoi
  | .nourrir consommable => g.nourrir consommable
  | .changeArme arme =>
    pure { g with toGuerrierAbstrait := g.toGuerrierAbstrait.changeArme arme }

/-- The mage after one call.  For `attaquer` the target is another object, whose new
state is not part of the mage; `attaquerSoi` is the call with the mage as target. -/
def Magicien.step (m : Magicien) : MagicienOp → Result Magicien
  | .prendreDommage value => do
    let a ← m.toAttaquable.prendreDommage value
    pure { m with toAttaquable := a }
  | .increaseVie value => do
    let a ← m.toAttaquable.increaseVie value
    pure { m with toAttaquable := a }
  | .changerEtat etat => pure { m with toAttaquable := m.toAttaquable.changerEtat etat }
  | .moveTo position => pure { m with toDeplacable := m.toDeplacable.moveTo position }
  | .attaquer cible => do
    let (m, _) ← m.attaquer cible
    pure m
  | .attaquerSoi => m.attaquerSoi
  | .nourrir consommable => m.nourrir consommable
  | .increaseMana value => do
    let a ← m.toMagicienAbstrait.increaseMana value
    pure { m with toMagicienAbstrait := a }

/-- The warrior after a sequence of calls, in order. -/
def Guerrier.exec (g : Guerrier) : List GuerrierOp → Result Guerrier
  | [] => pure g
  | op :: ops => do
    let g ← g.step op
    g.exec ops

/-- The mage after a sequence of calls, in order. -/
def Magicien.exec (m : Magicien) : List MagicienOp → Result Magicien
  | [] => pure m
  | op :: ops => do
    let m ← m.step op
    m.exec ops

/-! ## Attacks received, attacks between two characters, repeated attacks -/

/-- Dynamic type of an object seen through `Utilisable &`: a `Sort` or an `Arme`. -/
inductive Utilisable where
  | sort (s : Sort_)
  | arme (a : Arme)
  deriving DecidableEq

/-- Virtual call `utilisable.utiliserSur(attaquable)`. -/
def Utilisable.utiliserSur : Utilisable → Attaquable → Result Attaquable
  | .sort s, attaquable => s.utiliserSur attaquable
  | .arme a, attaquable => a.utiliserSur attaquable

/-- What happens to a `Guerrier` object: a call of one of its public member functions,
or an attack received, in which an attacker applies `utilisable` to it. -/
inductive GuerrierEvent where
  | appel (op : GuerrierOp)
  | cible (utilisable : Utilisable)
  deriving DecidableEq

/-- What happens to a `Magicien` object: a call of one of its public member functions,
or an attack received, in which an attacker applies `utilisable` to it. -/
inductive MagicienEvent where
  | appel (op : MagicienOp)
  | cible (utilisable : Utilisable)
  deriving DecidableEq

/-- The warrior after one event. -/
def Guerrier.subir (g : Guerrier) : GuerrierEvent → Result Guerrier
  | .appel op => g.step op
  | .cible utilisable => do
    let a ← utilisable.utiliserSur g.toAttaquable
    pure { g with toAttaquable := a }

/-- The mage after one event. -/
def Magicien.subir (m : Magicien) : MagicienEvent → Result Magicien
  | .appel op => m.step op
  | .cible utilisable => do
    let a ← utilisable.utiliserSur m.toAttaquable
    pure { m with toAttaquable := a }

/-- The warrior after a sequence of events, in order. -/
def Guerrier.histoire (g : Guerrier) : List GuerrierEvent → Result Guerrier
  | [] => pure g
  | e :: es => do
    let g ← g.subir e
    g.histoire es

/-- The mage after a sequence of events, in order. -/
def Magicien.histoire (m : Magicien) : List MagicienEvent → Result Magicien
  | [] => pure m
  | e :: es => do
    let m ← m.subir e
    m.histoire es

/-- A character object of one of the two instantiable classes, as the target of an
attack. -/
inductive Personnage where
  | guerrier (g : Guerrier)
  | magicien (m : Magicien)
  deriving DecidableEq

/-- The `Attaquable` base of a character, to which `Attaquable &` binds. -/
def Personnage.toAttaquable : Personnage → Attaquable
  | .guerrier g => g.toAttaquable
  | .magicien m => m.toAttaquable

/-- The character once its `Attaquable` base has been modified through the reference. -/
def Personnage.setAttaquable : Personnage → Attaquable → Personnage
  | .guerrier g, a => .guerrier { g with toAttaquable := a }
  | .magicien m, a => .magicien { m with toAttaquable := a }

/-- The position stored in a character. -/
def Personnage.position : Personnage → Coordonnee
  | .guerrier g => g.mPosition
  | .magicien m => m.mPosition

/-- The mana of a character, when its class has a mana member. -/
def Personnage.mana : Personnage → Option Int
  | .guerrier _ => none
  | .magicien m => some m.mMana

/-- The weapon pointer of a character, when its class has one. -/
def Personnage.arme : Personnage → Option (Option Arme)
  | .guerrier g => some g.mArme
  | .magicien _ => none

/-- The call `g.attaquer(cible)` where `cible` is another character object. -/
def Guerrier.attaquerPersonnage (g : Guerrier) (cible : Personnage) :
    Result (Guerrier × Personnage) := do
  let (g, a) ← g.attaquer cible.toAttaquable
  pure (g, cible.setAttaquable a)

/-- The call `m.attaquer(cible)` where `cible` is another character object. -/
def Magicien.attaquerPersonnage (m : Magicien) (cible : Personnage) :
    Result (Magicien × Personnage) := do
  let (m, a) ← m.attaquer cible.toAttaquable
  pure (m, cible.setAttaquable a)

/-- Successive calls `m.attaquer(c)`, one for each target `c` of the list, in order.  The
result is the mage and the targets after the attacks. -/
def Magicien.attaquerTous (m : Magicien) : List Attaquable → Result (Magicien × List Attaquable)
  | [] => pure (m, [])
  | c :: cs => do
    let (m, c) ← m.attaquer c
    let (m, cs) ← m.attaquerTous cs
    pure (m, c :: cs)

/-! ## Auxiliary facts -/

theorem checkedInt_eq_ok {v w : Int} (h : checkedInt v = .ok w) : w = v ∧ InInt v := by
  unfold checkedInt at h
  split at h
  · rename_i hr
    cases h
    exact ⟨rfl, hr⟩
  · cases h

theorem checkedInt_of_inInt {v : Int} (h : InInt v) : checkedInt v = .ok v := by
  unfold checkedInt
  rw [if_pos h]

theorem prendreDommage_of_inInt (a : Attaquable) (value : Int) (h : InInt (a.mVie - value)) :
    a.prendreDommage value = .ok { a with mVie := max 0 (a.mVie - value) } := by
  unfold Attaquable.prendreDommage
  rw [checkedInt_of_inInt h]
  have hm : (if a.mVie - value < 0 then 0 else a.mVie - value) = max 0 (a.mVie - value) := by
    split <;> omega
  show Except.ok _ = _
  rw [hm]

theorem prendreDommage_eq_ok {a b : Attaquable} {value : Int}
    (h : a.prendreDommage value = .ok b) :
    InInt (a.mVie - value) ∧ b = { a with mVie := max 0 (a.mVie - value) } := by
  cases hc : checkedInt (a.mVie - value) with
  | error e =>
    unfold Attaquable.prendreDommage at h
    rw [hc] at h
    cases h
  | ok v =>
    obtain ⟨-, hr⟩ := checkedInt_eq_ok hc
    rw [prendreDommage_of_inInt a value hr] at h
    cases h
    exact ⟨hr, rfl⟩

theorem increaseVie_of_inInt (a : Attaquable) (value : Int) (h : InInt (a.mVie + value)) :
    a.increaseVie value = .ok { a with mVie := a.mVie + value } := by
  unfold Attaquable.increaseVie
  rw [checkedInt_of_inInt h]
  rfl

theorem increaseVie_eq_ok {a b : Attaquable} {value : Int}
    (h : a.increaseVie value = .ok b) :
    InInt (a.mVie + value) ∧ b = { a with mVie := a.mVie + value } := by
  cases hc : checkedInt (a.mVie + value) with
  | error e =>
    unfold Attaquable.increaseVie at h
    rw [hc] at h
    cases h
  | ok v =>
    obtain ⟨-, hr⟩ := checkedInt_eq_ok hc
    rw [increaseVie_of_inInt a value hr] at h
    cases h
    exact ⟨hr, rfl⟩

theorem increaseMana_of_inInt (m : MagicienAbstrait) (value : Int)
    (h : InInt (m.mMana + value)) :
    m.increaseMana value = .ok { m with mMana := m.mMana + value } := by
  unfold MagicienAbstrait.increaseMana
  rw [checkedInt_of_inInt h]
  rfl

/-! ## Damage and healing -/

/-- C2: a damage amount at least equal to the current health leaves the health at
exactly 0 (and the status as it was), whenever the subtraction `mVie - value` is
representable in `int`, which it always is when the health is not negative. -/
theorem prendreDommage_ge_vie (a : Attaquable) (value : Int)
    (hge : a.mVie ≤ value) (hno : InInt (a.mVie - value)) :
    a.prendreDommage value = .ok { a with mVie := 0 } := by
  have h0 : max 0 (a.mVie - value) = 0 := by omega
  have h := prendreDommage_of_inInt a value hno
  rw [h0] at h
  exact h

/-- Instance of C2: a new warrior (health 500) taking 700 damage ends at health 0. -/
theorem prendreDommage_ge_vie_witness :
    (500 : Int) ≤ 700 ∧ InInt (500 - 700) ∧
      (Guerrier.new 10 10).toAttaquable.prendreDommage 700
        = .ok { (Guerrier.new 10 10).toAttaquable with mVie := 0 } :=
  ⟨by decide, by decide,
    prendreDommage_ge_vie (Guerrier.new 10 10).toAttaquable 700 (by decide) (by decide)⟩

/-- C8: `increaseVie` makes the health exactly `mVie + value`, with no clamp, whenever
that sum is representable in `int`; nothing else changes. -/
theorem increaseVie_exact (a : Attaquable) (value : Int) (hno : InInt (a.mVie + value)) :
    a.increaseVie value = .ok { a with mVie := a.mVie + value } :=
  increaseVie_of_inInt a value hno

/-- Instance of C8: a new mage (health 150) healed by 1000000. -/
theorem increaseVie_exact_witness :
    InInt (150 + 1000000) ∧
      (Magicien.new 5 5).toAttaquable.increaseVie 1000000
        = .ok { (Magicien.new 5 5).toAttaquable with mVie := 150 + 1000000 } :=
  ⟨by decide, increaseVie_exact (Magicien.new 5 5).toAttaquable 1000000 (by decide)⟩

/-! ## Attacks -/

/-- C3: when a warrior holding the poisoned sword attacks a target of health `h`
(with `h - 100` representable), the target ends poisoned with health `max 0 (h - 100)`,
which is `h - 100` when `100 ≤ h`; the warrior is unchanged. -/
theorem attaquer_epeeEmpoisonee (g : Guerrier) (cible : Attaquable)
    (harme : g.mArme = some Arme.EpeeEmpoisonee) (hno : InInt (cible.mVie - 100)) :
    g.attaquer cible
        = .ok (g, { mEtat := Etat.EMPOISONNER, mVie := max 0 (cible.mVie - 100) }) ∧
      (100 ≤ cible.mVie →
        g.attaquer cible = .ok (g, { mEtat := Etat.EMPOISONNER, mVie := cible.mVie - 100 })) := by
  have h : g.attaquer cible
      = .ok (g, { mEtat := Etat.EMPOISONNER, mVie := max 0 (cible.mVie - 100) }) := by
    unfold Guerrier.attaquer
    rw [harme]
    show (do
      let attaquable ← EpeeEmpoisonee.utiliserSur cible
      pure (g, attaquable)) = _
    unfold EpeeEmpoisonee.utiliserSur
    rw [prendreDommage_of_inInt cible 100 hno]
    rfl
  refine ⟨h, fun h100 => ?_⟩
  rw [h, max_eq_right (by omega)]

/-- Instance of C3: the warrior of `main`, holding the sword, attacks a new mage. -/
theorem attaquer_epeeEmpoisonee_witness :
    ({ Guerrier.new 10 10 with mArme := some Arme.EpeeEmpoisonee } : Guerrier).mArme
        = some Arme.EpeeEmpoisonee ∧
      InInt (150 - 100) ∧
      ({ Guerrier.new 10 10 with mArme := some Arme.EpeeEmpoisonee } : Guerrier).attaquer
          (Magicien.new 5 5).toAttaquable
        = .ok ({ Guerrier.new 10 10 with mArme := some Arme.EpeeEmpoisonee },
            { mEtat := Etat.EMPOISONNER, mVie := max 0 (150 - 100) }) :=
  ⟨rfl, by decide,
    (attaquer_epeeEmpoisonee { Guerrier.new 10 10 with mArme := some Arme.EpeeEmpoisonee }
      (Magicien.new 5 5).toAttaquable rfl (by decide)).1⟩

/-- C4: when a mage of mana `m` attacks a target of health `h` (with `m - 10` and
`h - 10` representable), the mage ends with mana `m - 10` and is otherwise unchanged,
and the target ends with health `max 0 (h - 10)`, which is `h - 10` when `10 ≤ h`,
and with the status it had. -/
theorem magicien_attaquer (m : Magicien) (cible : Attaquable)
    (hmana : InInt (m.mMana - 10)) (hno : InInt (cible.mVie - 10)) :
    m.attaquer cible
        = .ok ({ m with mMana := m.mMana - 10 },
            { mEtat := cible.mEtat, mVie := max 0 (cible.mVie - 10) }) ∧
      (10 ≤ cible.mVie →
        m.attaquer cible
          = .ok ({ m with mMana := m.mMana - 10 },
              { mEtat := cible.mEtat, mVie := cible.mVie - 10 })) := by
  have h : m.attaquer cible
      = .ok ({ m with mMana := m.mMana - 10 },
          { mEtat := cible.mEtat, mVie := max 0 (cible.mVie - 10) }) := by
    unfold Magicien.attaquer
    rw [checkedInt_of_inInt hmana]
    show (do
      let attaquable ← cible.prendreDommage 10
      pure (({ m with mMana := m.mMana - 10 } : Magicien), attaquable)) = _
    rw [prendreDommage_of_inInt cible 10 hno]
    rfl
  refine ⟨h, fun h10 => ?_⟩
  rw [h, max_eq_right (by omega)]

/-- Instance of C4: a new mage (mana 50) attacks a new warrior (health 500). -/
theorem magicien_attaquer_witness :
    InInt (50 - 10) ∧ InInt (500 - 10) ∧
      (Magicien.new 5 5).attaquer (Guerrier.new 10 10).toAttaquable
        = .ok ({ Magicien.new 5 5 with mMana := 50 - 10 },
            { mEtat := Etat.NO_STATE, mVie := max 0 (500 - 10) }) :=
  ⟨by decide, by decide,
    (magicien_attaquer (Magicien.new 5 5) (Guerrier.new 10 10).toAttaquable
      (by decide) (by decide)).1⟩

/-! ## Feeding -/

theorem potionDeVie_consommerPar (a : Attaquable) (hno : InInt (a.mVie + 10)) :
    PotionDeVie.consommerPar a = .ok (true, { a with mVie := a.mVie + 10 }) := by
  unfold PotionDeVie.consommerPar
  rw [increaseVie_of_inInt a 10 hno]
  rfl

theorem potionDeMana_consommerPar (m : MagicienAbstrait) (hno : InInt (m.mMana + 10)) :
    PotionDeMana.consommerPar m = .ok (true, { m with mMana := m.mMana + 10 }) := by
  unfold PotionDeMana.consommerPar
  rw [increaseMana_of_inInt m 10 hno]
  rfl

/-- C5: for a warrior, a mage and a warrior-mage alike, the entry point of
`PotionDeVie` selected by `nourrir` returns `true` and `nourrir` makes the health
exactly `mVie + 10` (that sum being representable), changing nothing else. -/
theorem nourrir_potionDeVie (g : Guerrier) (m : Magicien) (mg : MagicienGuerrier)
    (hg : InInt (g.mVie + 10)) (hm : InInt (m.mVie + 10)) (hmg : InInt (mg.mVie + 10)) :
    (Consommable.PotionDeVie.consommerParGuerrier g
        = .ok (true, { g with mVie := g.mVie + 10 }) ∧
      g.nourrir Consommable.PotionDeVie = .ok { g with mVie := g.mVie + 10 }) ∧
    (Consommable.PotionDeVie.consommerParMagicien m
        = .ok (true, { m with mVie := m.mVie + 10 }) ∧
      m.nourrir Consommable.PotionDeVie = .ok { m with mVie := m.mVie + 10 }) ∧
    (Consommable.PotionDeVie.consommerParMagicienGuerrier mg
        = .ok (true, { mg with mVie := mg.mVie + 10 }) ∧
      mg.nourrir Consommable.PotionDeVie = .ok { mg with mVie := mg.mVie + 10 }) := by
  have eg : Consommable.PotionDeVie.consommerParGuerrier g
      = .ok (true, { g with mVie := g.mVie + 10 }) := by
    simp only [Consommable.consommerParGuerrier]
    rw [potionDeVie_consommerPar g.toAttaquable hg]
    rfl
  have em : Consommable.PotionDeVie.consommerParMagicien m
      = .ok (true, { m with mVie := m.mVie + 10 }) := by
    simp only [Consommable.consommerParMagicien]
    rw [potionDeVie_consommerPar m.toAttaquable hm]
    rfl
  have emg : Consommable.PotionDeVie.consommerParMagicienGuerrier mg
      = .ok (true, { mg with mVie := mg.mVie + 10 }) := by
    simp only [Consommable.consommerParMagicienGuerrier]
    rw [potionDeVie_consommerPar mg.toAttaquable hmg]
    rfl
  refine ⟨⟨eg, ?_⟩, ⟨em, ?_⟩, ⟨emg, ?_⟩⟩
  · unfold Guerrier.nourrir
    rw [eg]
    rfl
  · unfold Magicien.nourrir
    rw [em]
    rfl
  · unfold MagicienGuerrier.nourrir
    rw [emg]
    rfl

/-- Instance of C5: a new warrior, a new mage and a warrior-mage of health 7. -/
theorem nourrir_potionDeVie_witness :
    InInt (500 + 10) ∧ InInt (150 + 10) ∧ InInt (7 + 10) ∧
      (Guerrier.new 10 10).nourrir Consommable.PotionDeVie
        = .ok { Guerrier.new 10 10 with mVie := 500 + 10 } ∧
      (Magicien.new 5 5).nourrir Consommable.PotionDeVie
        = .ok { Magicien.new 5 5 with mVie := 150 + 10 } ∧
      ({ toPersonnageJoueur := PersonnageJoueur.new 7 1 2 } : MagicienGuerrier).nourrir
          Consommable.PotionDeVie
        = .ok { toPersonnageJoueur := PersonnageJoueur.new (7 + 10) 1 2 } :=
  have h := nourrir_potionDeVie (Guerrier.new 10 10) (Magicien.new 5 5)
    { toPersonnageJoueur := PersonnageJoueur.new 7 1 2 } (by decide) (by decide) (by decide)
  ⟨by decide, by decide, by decide, h.1.2, h.2.1.2, h.2.2.2⟩

/-- C6: fed to a warrior, a mana potion reaches the entry point inherited from
`Consommable`, which returns `false`, and `nourrir` returns the warrior unchanged in
every field (health, status, position, weapon), without undefined behaviour. -/
theorem nourrir_guerrier_potionDeMana (g : Guerrier) :
    Consommable.PotionDeMana.consommerParGuerrier g = .ok (false, g) ∧
      Consommable.PotionDeMana.consommerParGuerrier g
        = Consommable.base.consommerParGuerrier g ∧
      g.nourrir Consommable.PotionDeMana = .ok g :=
  ⟨rfl, rfl, rfl⟩

/-- C7: for a mage and a warrior-mage of mana `mMana` (with `mMana + 10`
representable), the entry point of `PotionDeMana` selected by `nourrir` returns `true`
and `nourrir` makes the mana exactly `mMana + 10`, leaving the health and every other
field unchanged. -/
theorem nourrir_potionDeMana (m : Magicien) (mg : MagicienGuerrier)
    (hm : InInt (m.mMana + 10)) (hmg : InInt (mg.mMana + 10)) :
    (Consommable.PotionDeMana.consommerParMagicien m
        = .ok (true, { m with mMana := m.mMana + 10 }) ∧
      m.nourrir Consommable.PotionDeMana = .ok { m with mMana := m.mMana + 10 }) ∧
    (Consommable.PotionDeMana.consommerParMagicienGuerrier mg
        = .ok (true, { mg with mMana := mg.mMana + 10 }) ∧
      mg.nourrir Consommable.PotionDeMana = .ok { mg with mMana := mg.mMana + 10 }) := by
  have em : Consommable.PotionDeMana.consommerParMagicien m
      = .ok (true, { m with mMana := m.mMana + 10 }) := by
    simp only [Consommable.consommerParMagicien]
    rw [potionDeMana_consommerPar m.toMagicienAbstrait hm]
    rfl
  have emg : Consommable.PotionDeMana.consommerParMagicienGuerrier mg
      = .ok (true, { mg with mMana := mg.mMana + 10 }) := by
    simp only [Consommable.consommerParMagicienGuerrier]
    rw [potionDeMana_consommerPar mg.toMagicienAbstrait hmg]
    rfl
  refine ⟨⟨em, ?_⟩, ⟨emg, ?_⟩⟩
  · unfold Magicien.nourrir
    rw [em]
    rfl
  · unfold MagicienGuerrier.nourrir
    rw [emg]
    rfl

/-- Instance of C7: a new mage and a warrior-mage, both of mana 50. -/
theorem nourrir_potionDeMana_witness :
    InInt (50 + 10) ∧
      (Magicien.new 5 5).nourrir Consommable.PotionDeMana
        = .ok { Magicien.new 5 5 with mMana := 50 + 10 } ∧
      ({ toPersonnageJoueur := PersonnageJoueur.new 7 1 2 } : MagicienGuerrier).nourrir
          Consommable.PotionDeMana
        = .ok { toPersonnageJoueur := PersonnageJoueur.new 7 1 2, mMana := 50 + 10 } :=
  have h := nourrir_potionDeMana (Magicien.new 5 5)
    { toPersonnageJoueur := PersonnageJoueur.new 7 1 2 } (by decide) (by decide)
  ⟨by decide, h.1.2, h.2.2⟩

/-! ## The scenario -/

set_option maxRecDepth 100000 in
/-- C9: `main` runs without undefined behaviour; at its end the warrior has health 490,
no status and still holds the poisoned sword, the mage has health 50, status poisoned
and mana 40, and the text written to `std::cout` is the one below, whose last two
blocks show `Vie : 490` for the warrior and `Empoisonnee`, `Vie : 50` for the mage. -/
theorem main_scenario :
    main = .ok
      { cout := "Guerrier :\nArme : Epee empoisonnee\nPosition : 10, 10\nVie : 500\n\n"
          ++ "Magicien :\nSort : Sort\nPosition : 5, 5\nVie : 150\n\n\n"
          ++ "Guerrier :\nArme : Epee empoisonnee\nPosition : 10, 10\nVie : 490\n\n"
          ++ "Magicien :\nSort : Sort\nPosition : 5, 5\nEmpoisonnee\nVie : 50\n"
        guerrier :=
          { mEtat := Etat.NO_STATE, mVie := 490, mPosition := { x := 10, y := 10 },
            mArme := some Arme.EpeeEmpoisonee }
        magicien :=
          { mEtat := Etat.EMPOISONNER, mVie := 50, mPosition := { x := 5, y := 5 },
            mMana := 40 } } := by
  rfl

/-- C10: `Guerrier::attaquer` on a warrior without a weapon, either freshly constructed
or after `changeArme` with an empty pointer, dereferences the empty `mArme`: the call
is undefined behaviour, no error is reported and no outcome for the target is
defined. -/
theorem attaquer_sans_arme (x y : Int) (g : Guerrier) (cible : Attaquable) :
    (Guerrier.new x y).attaquer cible = .error Undefined.nullDereference ∧
      ({ g with toGuerrierAbstrait := g.toGuerrierAbstrait.changeArme none } : Guerrier).attaquer
          cible
        = .error Undefined.nullDereference :=
  ⟨rfl, rfl⟩

/-! ## Health along sequences of operations -/

theorem prendreDommage_vie_nonneg {a b : Attaquable} {value : Int}
    (h : a.prendreDommage value = .ok b) : 0 ≤ b.mVie := by
  obtain ⟨-, rfl⟩ := prendreDommage_eq_ok h
  exact le_max_left _ _

theorem increaseVie_vie_nonneg {a b : Attaquable} {value : Int}
    (h0 : 0 ≤ a.mVie) (hv : 0 ≤ value) (h : a.increaseVie value = .ok b) : 0 ≤ b.mVie := by
  obtain ⟨-, rfl⟩ := increaseVie_eq_ok h
  show 0 ≤ a.mVie + value
  omega

theorem epeeEmpoisonee_utiliserSur_eq_ok {a b : Attaquable}
    (h : EpeeEmpoisonee.utiliserSur a = .ok b) :
    InInt (a.mVie - 100) ∧ b = { mEtat := Etat.EMPOISONNER, mVie := max 0 (a.mVie - 100) } := by
  unfold EpeeEmpoisonee.utiliserSur at h
  cases hc : a.prendreDommage 100 with
  | error e => rw [hc] at h; cases h
  | ok c =>
    rw [hc] at h
    obtain ⟨hr, rfl⟩ := prendreDommage_eq_ok hc
    cases h
    exact ⟨hr, rfl⟩

theorem guerrier_attaquer_eq_ok {g g' : Guerrier} {cible cible' : Attaquable}
    (h : g.attaquer cible = .ok (g', cible')) :
    g' = g ∧ ∃ arme, g.mArme = some arme ∧ arme.utiliserSur cible = .ok cible' := by
  unfold Guerrier.attaquer at h
  cases harme : g.mArme with
  | none => rw [harme] at h; cases h
  | some arme =>
    rw [harme] at h
    cases hc : arme.utiliserSur cible with
    | error e =>
      simp only [hc] at h
      cases h
    | ok c =>
      simp only [hc] at h
      cases h
      exact ⟨rfl, arme, rfl, hc⟩

theorem magicien_attaquer_eq_ok {m m' : Magicien} {cible cible' : Attaquable}
    (h : m.attaquer cible = .ok (m', cible')) :
    InInt (m.mMana - 10) ∧ InInt (cible.mVie - 10) ∧ m' = { m with mMana := m.mMana - 10 } ∧
      cible' = { cible with mVie := max 0 (cible.mVie - 10) } := by
  unfold Magicien.attaquer at h
  cases hc : checkedInt (m.mMana - 10) with
  | error e => rw [hc] at h; cases h
  | ok v =>
    obtain ⟨rfl, hr⟩ := checkedInt_eq_ok hc
    rw [hc] at h
    cases hd : cible.prendreDommage 10 with
    | error e =>
      simp only [Sort_.utiliserSur, hd] at h
      cases h
    | ok c =>
      obtain ⟨hr', rfl⟩ := prendreDommage_eq_ok hd
      simp only [Sort_.utiliserSur, hd] at h
      cases h
      exact ⟨hr, hr', rfl, rfl⟩

theorem guerrier_step_vie_nonneg {g g' : Guerrier} {op : GuerrierOp}
    (hop : ∀ v, op = GuerrierOp.increaseVie v → 0 ≤ v) (h0 : 0 ≤ g.mVie)
    (h : g.step op = .ok g') : 0 ≤ g'.mVie := by
  cases op with
  | prendreDommage value =>
    simp only [Guerrier.step] at h
    cases hc : g.toAttaquable.prendreDommage value with
    | error e => rw [hc] at h; cases h
    | ok a =>
      rw [hc] at h
      cases h
      exact prendreDommage_vie_nonneg hc
  | increaseVie value =>
    simp only [Guerrier.step] at h
    cases hc : g.toAttaquable.increaseVie value with
    | error e => rw [hc] at h; cases h
    | ok a =>
      rw [hc] at h
      cases h
      exact increaseVie_vie_nonneg h0 (hop value rfl) hc
  | changerEtat etat =>
    cases h
    exact h0
  | moveTo position =>
    cases h
    exact h0
  | attaquer cible =>
    simp only [Guerrier.step] at h
    cases hc : g.attaquer cible with
    | error e => rw [hc] at h; cases h
    | ok r =>
      obtain ⟨g1, c1⟩ := r
      rw [hc] at h
      cases h
      obtain ⟨rfl, -⟩ := guerrier_attaquer_eq_ok hc
      exact h0
  | attaquerSoi =>
    simp only [Guerrier.step, Guerrier.attaquerSoi] at h
    cases hc : g.attaquer g.toAttaquable with
    | error e => rw [hc] at h; cases h
    | ok r =>
      obtain ⟨g1, c1⟩ := r
      rw [hc] at h
      cases h
      obtain ⟨rfl, arme, -, hu⟩ := guerrier_attaquer_eq_ok hc
      cases arme
      obtain ⟨-, rfl⟩ := epeeEmpoisonee_utiliserSur_eq_ok hu
      exact le_max_left _ _
  | nourrir consommable =>
    simp only [Guerrier.step, Guerrier.nourrir] at h
    cases consommable with
    | base => cases h; exact h0
    | PotionDeMana => cases h; exact h0
    | PotionDeVie =>
      simp only [Consommable.consommerParGuerrier, PotionDeVie.consommerPar] at h
      cases hc : g.toAttaquable.increaseVie 10 with
      | error e => rw [hc] at h; cases h
      | ok a =>
        rw [hc] at h
        cases h
        exact increaseVie_vie_nonneg h0 (by decide) hc
  | changeArme arme =>
    cases h
    exact h0

theorem magicien_step_vie_nonneg {m m' : Magicien} {op : MagicienOp}
    (hop : ∀ v, op = MagicienOp.increaseVie v → 0 ≤ v) (h0 : 0 ≤ m.mVie)
    (h : m.step op = .ok m') : 0 ≤ m'.mVie := by
  cases op with
  | prendreDommage value =>
    simp only [Magicien.step] at h
    cases hc : m.toAttaquable.prendreDommage value with
    | error e => rw [hc] at h; cases h
    | ok a =>
      rw [hc] at h
      cases h
      exact prendreDommage_vie_nonneg hc
  | increaseVie value =>
    simp only [Magicien.step] at h
    cases hc : m.toAttaquable.increaseVie value with
    | error e => rw [hc] at h; cases h
    | ok a =>
      rw [hc] at h
      cases h
      exact increaseVie_vie_nonneg h0 (hop value rfl) hc
  | changerEtat etat =>
    cases h
    exact h0
  | moveTo position =>
    cases h
    exact h0
  | attaquer cible =>
    simp only [Magicien.step] at h
    cases hc : m.attaquer cible with
    | error e => rw [hc] at h; cases h
    | ok r =>
      obtain ⟨m1, c1⟩ := r
      rw [hc] at h
      cases h
      obtain ⟨-, -, rfl, -⟩ := magicien_attaquer_eq_ok hc
      exact h0
  | attaquerSoi =>
    simp only [Magicien.step, Magicien.attaquerSoi] at h
    cases hc : m.attaquer m.toAttaquable with
    | error e => rw [hc] at h; cases h
    | ok r =>
      obtain ⟨m1, c1⟩ := r
      rw [hc] at h
      cases h
      obtain ⟨-, -, rfl, rfl⟩ := magicien_attaquer_eq_ok hc
      exact le_max_left _ _
  | nourrir consommable =>
    simp only [Magicien.step, Magicien.nourrir] at h
    cases consommable with
    | base => cases h; exact h0
    | PotionDeMana =>
      simp only [Consommable.consommerParMagicien, PotionDeMana.consommerPar] at h
      cases hc : m.toMagicienAbstrait.increaseMana 10 with
      | error e => rw [hc] at h; cases h
      | ok a =>
        rw [hc] at h
        cases h
        exact h0
    | PotionDeVie =>
      simp only [Consommable.consommerParMagicien, PotionDeVie.consommerPar] at h
      cases hc : m.toAttaquable.increaseVie 10 with
      | error e => rw [hc] at h; cases h
      | ok a =>
        rw [hc] at h
        cases h
        exact increaseVie_vie_nonneg h0 (by decide) hc
  | increaseMana value =>
    simp only [Magicien.step] at h
    cases hc : m.toMagicienAbstrait.increaseMana value with
    | error e => rw [hc] at h; cases h
    | ok a =>
      rw [hc] at h
      cases h
      exact h0

theorem guerrier_exec_vie_nonneg (ops : List GuerrierOp) :
    ∀ g g' : Guerrier, (∀ v, GuerrierOp.increaseVie v ∈ ops → 0 ≤ v) → 0 ≤ g.mVie →
      g.exec ops = .ok g' → 0 ≤ g'.mVie := by
  induction ops with
  | nil =>
    intro g g' _ h0 h
    cases h
    exact h0
  | cons op ops ih =>
    intro g g' hops h0 h
    simp only [Guerrier.exec] at h
    cases hc : g.step op with
    | error e => rw [hc] at h; cases h
    | ok g1 =>
      rw [hc] at h
      have h1 : 0 ≤ g1.mVie :=
        guerrier_step_vie_nonneg (fun v hv => hops v (hv ▸ List.mem_cons_self _ _)) h0 hc
      exact ih g1 g' (fun v hv => hops v (List.mem_cons_of_mem _ hv)) h1 h

theorem magicien_exec_vie_nonneg (ops : List MagicienOp) :
    ∀ m m' : Magicien, (∀ v, MagicienOp.increaseVie v ∈ ops → 0 ≤ v) → 0 ≤ m.mVie →
      m.exec ops = .ok m' → 0 ≤ m'.mVie := by
  induction ops with
  | nil =>
    intro m m' _ h0 h
    cases h
    exact h0
  | cons op ops ih =>
    intro m m' hops h0 h
    simp only [Magicien.exec] at h
    cases hc : m.step op with
    | error e => rw [hc] at h; cases h
    | ok m1 =>
      rw [hc] at h
      have h1 : 0 ≤ m1.mVie :=
        magicien_step_vie_nonneg (fun v hv => hops v (hv ▸ List.mem_cons_self _ _)) h0 hc
      exact ih m1 m' (fun v hv => hops v (List.mem_cons_of_mem _ hv)) h1 h

/-- C1 (as stated, refuted): a negative amount passed to `increaseVie` makes the health
negative: from a new warrior of health 500, `increaseVie(-501)` is defined and leaves
the health at -1. -/
theorem vie_negative_apres_increaseVie :
    Except.map (fun g : Guerrier => g.getVie)
        ((Guerrier.new 10 10).exec [GuerrierOp.increaseVie (-501)])
      = .ok (-1) := by
  rfl

/-- C1 (amended): from a newly constructed warrior or mage, after any sequence of public
calls in which every amount passed to `increaseVie` is at least 0, and which runs
without undefined behaviour, the health is at least 0. -/
theorem vie_nonneg_of_soins_nonneg (x y x' y' : Int)
    (opsG : List GuerrierOp) (opsM : List MagicienOp) (g : Guerrier) (m : Magicien)
    (hG : ∀ v, GuerrierOp.increaseVie v ∈ opsG → 0 ≤ v)
    (hM : ∀ v, MagicienOp.increaseVie v ∈ opsM → 0 ≤ v)
    (hg : (Guerrier.new x y).exec opsG = .ok g)
    (hm : (Magicien.new x' y').exec opsM = .ok m) :
    0 ≤ g.getVie ∧ 0 ≤ m.getVie :=
  ⟨guerrier_exec_vie_nonneg opsG (Guerrier.new x y) g hG (show (0 : Int) ≤ 500 by decide) hg,
    magicien_exec_vie_nonneg opsM (Magicien.new x' y') m hM (show (0 : Int) ≤ 150 by decide) hm⟩

/-- Instance of C1 (amended): two defined runs, whose only `increaseVie` amount is 5,
ending at health 15 for the warrior and 143 for the mage. -/
theorem vie_nonneg_of_soins_nonneg_witness :
    (Guerrier.new 10 10).exec
        [GuerrierOp.changeArme (some Arme.EpeeEmpoisonee),
          GuerrierOp.attaquer { mVie := 150 }, GuerrierOp.prendreDommage 700,
          GuerrierOp.increaseVie 5, GuerrierOp.nourrir Consommable.PotionDeVie]
      = .ok { mVie := 15, mPosition := { x := 10, y := 10 },
              mArme := some Arme.EpeeEmpoisonee } ∧
    (Magicien.new 5 5).exec
        [MagicienOp.attaquerSoi, MagicienOp.prendreDommage (-3),
          MagicienOp.changerEtat Etat.EMPOISONNER, MagicienOp.moveTo { x := 1, y := 2 }]
      = .ok { mEtat := Etat.EMPOISONNER, mVie := 143, mPosition := { x := 1, y := 2 },
              mMana := 40 } ∧
    (0 : Int) ≤ 15 ∧ (0 : Int) ≤ 143 :=
  ⟨by rfl, by rfl,
    vie_nonneg_of_soins_nonneg 10 10 5 5
      [GuerrierOp.changeArme (some Arme.EpeeEmpoisonee),
        GuerrierOp.attaquer { mVie := 150 }, GuerrierOp.prendreDommage 700,
        GuerrierOp.increaseVie 5, GuerrierOp.nourrir Consommable.PotionDeVie]
      [MagicienOp.attaquerSoi, MagicienOp.prendreDommage (-3),
        MagicienOp.changerEtat Etat.EMPOISONNER, MagicienOp.moveTo { x := 1, y := 2 }]
      { mVie := 15, mPosition := { x := 10, y := 10 }, mArme := some Arme.EpeeEmpoisonee }
      { mEtat := Etat.EMPOISONNER, mVie := 143, mPosition := { x := 1, y := 2 }, mMana := 40 }
      (by intro v hv; simp at hv; omega)
      (by intro v hv; simp at hv)
      (by rfl) (by rfl)⟩

/-! ## Descriptions -/

theorem personnageJoueur_ecrireDetails_eq (p : PersonnageJoueur) (stream : String) :
    p.ecrireDetails stream
      = stream ++ ("Position : " ++ toString p.mPosition.x ++ ", " ++ toString p.mPosition.y
            ++ "\n"
          ++ (if p.mEtat = Etat.EMPOISONNER then "Empoisonnee" ++ "\n" else "")
          ++ ("Vie : " ++ toString p.mVie ++ "\n")) := by
  unfold PersonnageJoueur.ecrireDetails
  by_cases h : p.mEtat = Etat.EMPOISONNER
  · simp only [h, if_true, String.append_assoc]
  · simp only [h, if_false, String.append_assoc, String.append_empty, String.empty_append]

/-- C11: `ecrireDetails` of a warrior holding a weapon, and of a mage, appends to the
stream exactly these lines in this order: the label line (`Guerrier :` or `Magicien :`),
the equipment line (`Arme : ` followed by what the weapon writes, or `Sort : ` followed
by what the spell writes), the position line with the current `x` and `y`, the line
`Empoisonnee` if and only if the status is `EMPOISONNER`, and the health line with the
current `mVie`. -/
theorem ecrireDetails_lignes (g : Guerrier) (arme : Arme) (m : Magicien) (stream : String)
    (harme : g.mArme = some arme) :
    g.ecrireDetails stream
        = .ok (stream ++ ("Guerrier :" ++ "\n"
            ++ ("Arme : " ++ arme.ecrireDetails "")
            ++ ("Position : " ++ toString g.mPosition.x ++ ", " ++ toString g.mPosition.y
              ++ "\n")
            ++ (if g.mEtat = Etat.EMPOISONNER then "Empoisonnee" ++ "\n" else "")
            ++ ("Vie : " ++ toString g.mVie ++ "\n"))) ∧
      m.ecrireDetails stream
        = stream ++ ("Magicien :" ++ "\n"
            ++ ("Sort : " ++ m.mSort.ecrireDetails "")
            ++ ("Position : " ++ toString m.mPosition.x ++ ", " ++ toString m.mPosition.y
              ++ "\n")
            ++ (if m.mEtat = Etat.EMPOISONNER then "Empoisonnee" ++ "\n" else "")
            ++ ("Vie : " ++ toString m.mVie ++ "\n")) := by
  constructor
  · unfold Guerrier.ecrireDetails
    simp only [harme]
    cases arme
    show Except.ok _ = Except.ok _
    rw [personnageJoueur_ecrireDetails_eq]
    simp only [Arme.ecrireDetails, EpeeEmpoisonee.ecrireDetails, String.append_assoc,
      String.empty_append]
  · unfold Magicien.ecrireDetails
    show PersonnageJoueur.ecrireDetails _ _ = _
    rw [personnageJoueur_ecrireDetails_eq]
    simp only [Sort_.ecrireDetails, String.append_assoc, String.empty_append]

set_option maxRecDepth 100000 in
/-- Instance of C11: the poisoned mage and the warrior at the end of `main`. -/
theorem ecrireDetails_lignes_witness :
    ({ mVie := 490, mPosition := { x := 10, y := 10 },
        mArme := some Arme.EpeeEmpoisonee } : Guerrier).mArme = some Arme.EpeeEmpoisonee ∧
      ({ mVie := 490, mPosition := { x := 10, y := 10 },
          mArme := some Arme.EpeeEmpoisonee } : Guerrier).ecrireDetails ""
        = .ok "Guerrier :\nArme : Epee empoisonnee\nPosition : 10, 10\nVie : 490\n" ∧
      ({ mEtat := Etat.EMPOISONNER, mVie := 50, mPosition := { x := 5, y := 5 },
          mMana := 40 } : Magicien).ecrireDetails ""
        = "Magicien :\nSort : Sort\nPosition : 5, 5\nEmpoisonnee\nVie : 50\n" :=
  have h := ecrireDetails_lignes
    { mVie := 490, mPosition := { x := 10, y := 10 }, mArme := some Arme.EpeeEmpoisonee }
    Arme.EpeeEmpoisonee
    { mEtat := Etat.EMPOISONNER, mVie := 50, mPosition := { x := 5, y := 5 }, mMana := 40 }
    "" rfl
  ⟨rfl, h.1.trans (by rfl), h.2.trans (by rfl)⟩

/-- C14 (as stated, refuted): on an empty stream `Sort::ecrireDetails` writes `Sort` and
`EpeeEmpoisonee::ecrireDetails` writes `Epee empoisonnee`, each followed by a newline;
neither text is `Spell` or `Poisoned Sword`, with or without the newline. -/
theorem ecrireDetails_pas_en_anglais :
    Sort_.ecrireDetails {} "" = "Sort\n" ∧
      Sort_.ecrireDetails {} "" ≠ "Spell\n" ∧ Sort_.ecrireDetails {} "" ≠ "Spell" ∧
      EpeeEmpoisonee.ecrireDetails "" = "Epee empoisonnee\n" ∧
      EpeeEmpoisonee.ecrireDetails "" ≠ "Poisoned Sword\n" ∧
      EpeeEmpoisonee.ecrireDetails "" ≠ "Poisoned Sword" := by
  decide

/-- C14 (amended): whatever the stream holds, `Sort::ecrireDetails` appends the fixed
label `Sort` and a newline, and `EpeeEmpoisonee::ecrireDetails` appends the fixed label
`Epee empoisonnee` and a newline. -/
theorem ecrireDetails_labels (s : Sort_) (stream : String) :
    s.ecrireDetails stream = stream ++ "Sort" ++ "\n" ∧
      EpeeEmpoisonee.ecrireDetails stream = stream ++ "Epee empoisonnee" ++ "\n" ∧
      Arme.EpeeEmpoisonee.ecrireDetails stream = stream ++ "Epee empoisonnee" ++ "\n" :=
  ⟨rfl, rfl, rfl⟩

/-! ## Status and position -/

/-- C12: calling `changerEtat(s)` twice in a row gives the same object as calling it
once, and `getEtat` then returns `s`; the same holds for a warrior and for a mage as
whole objects, whose other members the calls leave as they were. -/
theorem changerEtat_idempotent (a : Attaquable) (g : Guerrier) (m : Magicien) (s : Etat) :
    ((a.changerEtat s).changerEtat s = a.changerEtat s ∧ (a.changerEtat s).getEtat = s ∧
        (a.changerEtat s).getVie = a.getVie) ∧
      (g.exec [GuerrierOp.changerEtat s, GuerrierOp.changerEtat s]
          = g.exec [GuerrierOp.changerEtat s] ∧
        g.exec [GuerrierOp.changerEtat s] = .ok { g with mEtat := s }) ∧
      (m.exec [MagicienOp.changerEtat s, MagicienOp.changerEtat s]
          = m.exec [MagicienOp.changerEtat s] ∧
        m.exec [MagicienOp.changerEtat s] = .ok { m with mEtat := s }) :=
  ⟨⟨rfl, rfl, rfl⟩, ⟨rfl, rfl⟩, ⟨rfl, rfl⟩⟩

/-- C13: `moveTo(p)` makes the stored position exactly `p`, whatever it was, and as a
call on a warrior, a mage or a warrior-mage it leaves health, status, mana and weapon
unchanged. -/
theorem moveTo_frame (d : Deplacable) (g : Guerrier) (m : Magicien) (mg : MagicienGuerrier)
    (p : Coordonnee) :
    (d.moveTo p).mPosition = p ∧
      g.step (GuerrierOp.moveTo p)
        = .ok { mEtat := g.mEtat, mVie := g.mVie, mPosition := p, mArme := g.mArme } ∧
      m.step (MagicienOp.moveTo p)
        = .ok { mEtat := m.mEtat, mVie := m.mVie, mPosition := p, mMana := m.mMana,
                mSort := m.mSort } ∧
      ({ mg with toDeplacable := mg.toDeplacable.moveTo p } : MagicienGuerrier)
        = { mEtat := mg.mEtat, mVie := mg.mVie, mPosition := p, mMana := mg.mMana,
            mSort := mg.mSort, mArme := mg.mArme } :=
  ⟨rfl, rfl, rfl, rfl⟩

/-! ## Damage as a function of health and amount -/

/-- C15 (as stated, refuted): on a negative health a damage amount `0` raises the health:
a new warrior brought to health -1 by `increaseVie(-501)` is at health 0 after
`prendreDommage(0)`. -/
theorem prendreDommage_zero_augmente_vie :
    Except.map (fun g : Guerrier => g.getVie)
        ((Guerrier.new 10 10).exec [GuerrierOp.increaseVie (-501)]) = .ok (-1) ∧
      Except.map (fun g : Guerrier => g.getVie)
        ((Guerrier.new 10 10).exec
          [GuerrierOp.increaseVie (-501), GuerrierOp.prendreDommage 0]) = .ok 0 := by
  constructor <;> rfl

/-- C15 (amended): when `mVie - value` is representable, `prendreDommage(value)` sets the
health to `max 0 (mVie - value)` and changes nothing else, also seen as a call on a
warrior or a mage; hence, on a health that is not negative, an amount `value ≥ 0` never
increases the health and an amount `value < 0` raises it to `mVie - value`. -/
theorem prendreDommage_max (a : Attaquable) (g : Guerrier) (m : Magicien) (value : Int)
    (ha : InInt (a.mVie - value)) (hg : InInt (g.mVie - value))
    (hm : InInt (m.mVie - value)) :
    (a.prendreDommage value = .ok { a with mVie := max 0 (a.mVie - value) } ∧
        (0 ≤ value → 0 ≤ a.mVie → max 0 (a.mVie - value) ≤ a.mVie) ∧
        (value < 0 → 0 ≤ a.mVie →
          max 0 (a.mVie - value) = a.mVie - value ∧ a.mVie < a.mVie - value)) ∧
      g.step (GuerrierOp.prendreDommage value)
        = .ok { g with mVie := max 0 (g.mVie - value) } ∧
      m.step (MagicienOp.prendreDommage value)
        = .ok { m with mVie := max 0 (m.mVie - value) } := by
  refine ⟨⟨prendreDommage_of_inInt a value ha, ?_, ?_⟩, ?_, ?_⟩
  · intro hv h0
    omega
  · intro hv h0
    omega
  · simp only [Guerrier.step]
    rw [prendreDommage_of_inInt g.toAttaquable value hg]
    rfl
  · simp only [Magicien.step]
    rw [prendreDommage_of_inInt m.toAttaquable value hm]
    rfl

/-- Instance of C15 (amended): damage -20 on a new mage and on a new warrior. -/
theorem prendreDommage_max_witness :
    InInt (150 - (-20)) ∧ InInt (500 - (-20)) ∧
      (Magicien.new 5 5).toAttaquable.prendreDommage (-20)
        = .ok { (Magicien.new 5 5).toAttaquable with mVie := max 0 (150 - (-20)) } ∧
      (Guerrier.new 10 10).step (GuerrierOp.prendreDommage (-20))
        = .ok { Guerrier.new 10 10 with mVie := max 0 (500 - (-20)) } :=
  have h := prendreDommage_max (Magicien.new 5 5).toAttaquable (Guerrier.new 10 10)
    (Magicien.new 5 5) (-20) (by decide) (by decide) (by decide)
  ⟨by decide, by decide, h.1.1, h.2.1⟩

/-- C19: on a health `mVie ≥ 0`, `increaseVie(value)` followed by `prendreDommage(value)`
with `value ≥ 0` (and `mVie + value` representable) gives back the object it started
from; in the other order, when `mVie < value`, the health ends at `value`, which is not
`mVie`, as for health 5 and amount 7. -/
theorem increaseVie_prendreDommage_roundtrip (a : Attaquable) (value : Int)
    (h0 : 0 ≤ a.mVie) (hv : 0 ≤ value) (hno : InInt (a.mVie + value)) :
    (a.increaseVie value >>= fun b => b.prendreDommage value) = .ok a ∧
      (a.mVie < value →
        (a.prendreDommage value >>= fun b => b.increaseVie value)
            = .ok { a with mVie := value } ∧ value ≠ a.mVie) ∧
      (({ mVie := 5 } : Attaquable).prendreDommage 7 >>= fun b => b.increaseVie 7)
        = .ok { mVie := 7 } := by
  obtain ⟨hlo, hhi⟩ := hno
  have hIMin : INT_MIN = -2147483648 := rfl
  have hIMax : INT_MAX = 2147483647 := rfl
  refine ⟨?_, ?_, by rfl⟩
  · rw [increaseVie_of_inInt a value ⟨hlo, hhi⟩]
    show Attaquable.prendreDommage _ value = _
    have hr : InInt (a.mVie + value - value) := by
      constructor <;> omega
    rw [prendreDommage_of_inInt _ value hr]
    have hmax : max 0 (a.mVie + value - value) = a.mVie := by omega
    show Except.ok _ = Except.ok _
    simp only [hmax]
  · intro hlt
    have hr : InInt (a.mVie - value) := by
      constructor <;> omega
    rw [prendreDommage_of_inInt a value hr]
    show Attaquable.increaseVie _ value = _ ∧ _
    have hmax : max 0 (a.mVie - value) = 0 := by omega
    have hr2 : InInt (0 + value) := by
      constructor <;> omega
    simp only [hmax]
    rw [increaseVie_of_inInt _ value hr2]
    refine ⟨?_, by omega⟩
    show Except.ok _ = Except.ok _
    simp only [zero_add]

/-- Instance of C19: health 150, amount 1000. -/
theorem increaseVie_prendreDommage_roundtrip_witness :
    (0 : Int) ≤ 150 ∧ (0 : Int) ≤ 1000 ∧ InInt (150 + 1000) ∧
      ((Magicien.new 5 5).toAttaquable.increaseVie 1000
          >>= fun b => b.prendreDommage 1000) = .ok (Magicien.new 5 5).toAttaquable ∧
      ((Magicien.new 5 5).toAttaquable.prendreDommage 1000
          >>= fun b => b.increaseVie 1000)
        = .ok { (Magicien.new 5 5).toAttaquable with mVie := 1000 } :=
  have h := increaseVie_prendreDommage_roundtrip (Magicien.new 5 5).toAttaquable 1000
    (by decide) (by decide) (by decide)
  ⟨by decide, by decide, by decide, h.1, (h.2.1 (by decide)).1⟩

/-! ## Poison along sequences of events -/

theorem utilisable_utiliserSur_poison {u : Utilisable} {a b : Attaquable}
    (h0 : a.mEtat = Etat.EMPOISONNER) (h : u.utiliserSur a = .ok b) :
    b.mEtat = Etat.EMPOISONNER := by
  cases u with
  | sort s =>
    obtain ⟨-, rfl⟩ := prendreDommage_eq_ok (show a.prendreDommage 10 = .ok b from h)
    exact h0
  | arme w =>
    cases w
    obtain ⟨-, rfl⟩ := epeeEmpoisonee_utiliserSur_eq_ok
      (show EpeeEmpoisonee.utiliserSur a = .ok b from h)
    rfl

theorem guerrier_step_poison {g g' : Guerrier} {op : GuerrierOp}
    (hop : op ≠ GuerrierOp.changerEtat Etat.NO_STATE) (h0 : g.mEtat = Etat.EMPOISONNER)
    (h : g.step op = .ok g') : g'.mEtat = Etat.EMPOISONNER := by
  cases op with
  | prendreDommage value =>
    simp only [Guerrier.step] at h
    cases hc : g.toAttaquable.prendreDommage value with
    | error e => rw [hc] at h; cases h
    | ok a =>
      rw [hc] at h
      cases h
      obtain ⟨-, rfl⟩ := prendreDommage_eq_ok hc
      exact h0
  | increaseVie value =>
    simp only [Guerrier.step] at h
    cases hc : g.toAttaquable.increaseVie value with
    | error e => rw [hc] at h; cases h
    | ok a =>
      rw [hc] at h
      cases h
      obtain ⟨-, rfl⟩ := increaseVie_eq_ok hc
      exact h0
  | changerEtat etat =>
    cases etat with
    | NO_STATE => exact absurd rfl hop
    | EMPOISONNER =>
      cases h
      rfl
  | moveTo position =>
    cases h
    exact h0
  | attaquer cible =>
    simp only [Guerrier.step] at h
    cases hc : g.attaquer cible with
    | error e => rw [hc] at h; cases h
    | ok r =>
      obtain ⟨g1, c1⟩ := r
      rw [hc] at h
      cases h
      obtain ⟨rfl, -⟩ := guerrier_attaquer_eq_ok hc
      exact h0
  | attaquerSoi =>
    simp only [Guerrier.step, Guerrier.attaquerSoi] at h
    cases hc : g.attaquer g.toAttaquable with
    | error e => rw [hc] at h; cases h
    | ok r =>
      obtain ⟨g1, c1⟩ := r
      rw [hc] at h
      cases h
      obtain ⟨rfl, arme, -, hu⟩ := guerrier_attaquer_eq_ok hc
      exact utilisable_utiliserSur_poison (u := Utilisable.arme arme) h0 hu
  | nourrir consommable =>
    simp only [Guerrier.step, Guerrier.nourrir] at h
    cases consommable with
    | base => cases h; exact h0
    | PotionDeMana => cases h; exact h0
    | PotionDeVie =>
      simp only [Consommable.consommerParGuerrier, PotionDeVie.consommerPar] at h
      cases hc : g.toAttaquable.increaseVie 10 with
      | error e => rw [hc] at h; cases h
      | ok a =>
        rw [hc] at h
        cases h
        obtain ⟨-, rfl⟩ := increaseVie_eq_ok hc
        exact h0
  | changeArme arme =>
    cases h
    exact h0

theorem magicien_step_poison {m m' : Magicien} {op : MagicienOp}
    (hop : op ≠ MagicienOp.changerEtat Etat.NO_STATE) (h0 : m.mEtat = Etat.EMPOISONNER)
    (h : m.step op = .ok m') : m'.mEtat = Etat.EMPOISONNER := by
  cases op with
  | prendreDommage value =>
    simp only [Magicien.step] at h
    cases hc : m.toAttaquable.prendreDommage value with
    | error e => rw [hc] at h; cases h
    | ok a =>
      rw [hc] at h
      cases h
      obtain ⟨-, rfl⟩ := prendreDommage_eq_ok hc
      exact h0
  | increaseVie value =>
    simp only [Magicien.step] at h
    cases hc : m.toAttaquable.increaseVie value with
    | error e => rw [hc] at h; cases h
    | ok a =>
      rw [hc] at h
      cases h
      obtain ⟨-, rfl⟩ := increaseVie_eq_ok hc
      exact h0
  | changerEtat etat =>
    cases etat with
    | NO_STATE => exact absurd rfl hop
    | EMPOISONNER =>
      cases h
      rfl
  | moveTo position =>
    cases h
    exact h0
  | attaquer cible =>
    simp only [Magicien.step] at h
    cases hc : m.attaquer cible with
    | error e => rw [hc] at h; cases h
    | ok r =>
      obtain ⟨m1, c1⟩ := r
      rw [hc] at h
      cases h
      obtain ⟨-, -, rfl, -⟩ := magicien_attaquer_eq_ok hc
      exact h0
  | attaquerSoi =>
    simp only [Magicien.step, Magicien.attaquerSoi] at h
    cases hc : m.attaquer m.toAttaquable with
    | error e => rw [hc] at h; cases h
    | ok r =>
      obtain ⟨m1, c1⟩ := r
      rw [hc] at h
      cases h
      obtain ⟨-, -, rfl, rfl⟩ := magicien_attaquer_eq_ok hc
      exact h0
  | nourrir consommable =>
    simp only [Magicien.step, Magicien.nourrir] at h
    cases consommable with
    | base => cases h; exact h0
    | PotionDeMana =>
      simp only [Consommable.consommerParMagicien, PotionDeMana.consommerPar] at h
      cases hc : m.toMagicienAbstrait.increaseMana 10 with
      | error e => rw [hc] at h; cases h
      | ok a =>
        rw [hc] at h
        cases h
        exact h0
    | PotionDeVie =>
      simp only [Consommable.consommerParMagicien, PotionDeVie.consommerPar] at h
      cases hc : m.toAttaquable.increaseVie 10 with
      | error e => rw [hc] at h; cases h
      | ok a =>
        rw [hc] at h
        cases h
        obtain ⟨-, rfl⟩ := increaseVie_eq_ok hc
        exact h0
  | increaseMana value =>
    simp only [Magicien.step] at h
    cases hc : m.toMagicienAbstrait.increaseMana value with
    | error e => rw [hc] at h; cases h
    | ok a =>
      rw [hc] at h
      cases h
      exact h0

theorem guerrier_subir_poison {g g' : Guerrier} {e : GuerrierEvent}
    (he : e ≠ GuerrierEvent.appel (GuerrierOp.changerEtat Etat.NO_STATE))
    (h0 : g.mEtat = Etat.EMPOISONNER) (h : g.subir e = .ok g') :
    g'.mEtat = Etat.EMPOISONNER := by
  cases e with
  | appel op =>
    exact guerrier_step_poison (fun hop => he (by rw [hop])) h0 h
  | cible u =>
    simp only [Guerrier.subir] at h
    cases hc : u.utiliserSur g.toAttaquable with
    | error e => rw [hc] at h; cases h
    | ok a =>
      rw [hc] at h
      cases h
      exact utilisable_utiliserSur_poison h0 hc

theorem magicien_subir_poison {m m' : Magicien} {e : MagicienEvent}
    (he : e ≠ MagicienEvent.appel (MagicienOp.changerEtat Etat.NO_STATE))
    (h0 : m.mEtat = Etat.EMPOISONNER) (h : m.subir e = .ok m') :
    m'.mEtat = Etat.EMPOISONNER := by
  cases e with
  | appel op =>
    exact magicien_step_poison (fun hop => he (by rw [hop])) h0 h
  | cible u =>
    simp only [Magicien.subir] at h
    cases hc : u.utiliserSur m.toAttaquable with
    | error e => rw [hc] at h; cases h
    | ok a =>
      rw [hc] at h
      cases h
      exact utilisable_utiliserSur_poison h0 hc

theorem guerrier_histoire_poison (es : List GuerrierEvent) :
    ∀ g g' : Guerrier, GuerrierEvent.appel (GuerrierOp.changerEtat Etat.NO_STATE) ∉ es →
      g.mEtat = Etat.EMPOISONNER → g.histoire es = .ok g' →
      g'.mEtat = Etat.EMPOISONNER := by
  induction es with
  | nil =>
    intro g g' _ h0 h
    cases h
    exact h0
  | cons e es ih =>
    intro g g' hes h0 h
    simp only [Guerrier.histoire] at h
    cases hc : g.subir e with
    | error err => rw [hc] at h; cases h
    | ok g1 =>
      rw [hc] at h
      have h1 : g1.mEtat = Etat.EMPOISONNER :=
        guerrier_subir_poison (fun he => hes (he ▸ List.mem_cons_self _ _)) h0 hc
      exact ih g1 g' (fun hmem => hes (List.mem_cons_of_mem _ hmem)) h1 h

theorem magicien_histoire_poison (es : List MagicienEvent) :
    ∀ m m' : Magicien, MagicienEvent.appel (MagicienOp.changerEtat Etat.NO_STATE) ∉ es →
      m.mEtat = Etat.EMPOISONNER → m.histoire es = .ok m' →
      m'.mEtat = Etat.EMPOISONNER := by
  induction es with
  | nil =>
    intro m m' _ h0 h
    cases h
    exact h0
  | cons e es ih =>
    intro m m' hes h0 h
    simp only [Magicien.histoire] at h
    cases hc : m.subir e with
    | error err => rw [hc] at h; cases h
    | ok m1 =>
      rw [hc] at h
      have h1 : m1.mEtat = Etat.EMPOISONNER :=
        magicien_subir_poison (fun he => hes (he ▸ List.mem_cons_self _ _)) h0 hc
      exact ih m1 m' (fun hmem => hes (List.mem_cons_of_mem _ hmem)) h1 h

/-- C16: a warrior or a mage whose status is `EMPOISONNER` still has that status after
any defined sequence of events (attacks received through a spell or a weapon, and calls
of its public members: attacks made, `nourrir`, `prendreDommage`, `increaseVie`,
`moveTo`, ...) that contains no call `changerEtat(NO_STATE)`; that call does reset the
status. -/
theorem poison_persiste (g g' : Guerrier) (m m' : Magicien)
    (esG : List GuerrierEvent) (esM : List MagicienEvent)
    (hg0 : g.getEtat = Etat.EMPOISONNER) (hm0 : m.getEtat = Etat.EMPOISONNER)
    (hG : GuerrierEvent.appel (GuerrierOp.changerEtat Etat.NO_STATE) ∉ esG)
    (hM : MagicienEvent.appel (MagicienOp.changerEtat Etat.NO_STATE) ∉ esM)
    (hg : g.histoire esG = .ok g') (hm : m.histoire esM = .ok m') :
    (g'.getEtat = Etat.EMPOISONNER ∧ m'.getEtat = Etat.EMPOISONNER) ∧
      g.subir (GuerrierEvent.appel (GuerrierOp.changerEtat Etat.NO_STATE))
        = .ok { g with mEtat := Etat.NO_STATE } ∧
      m.subir (MagicienEvent.appel (MagicienOp.changerEtat Etat.NO_STATE))
        = .ok { m with mEtat := Etat.NO_STATE } :=
  ⟨⟨guerrier_histoire_poison esG g g' hG hg0 hg, magicien_histoire_poison esM m m' hM hm0 hm⟩,
    rfl, rfl⟩

/-- Instance of C16: a poisoned warrior holding the sword and the poisoned mage left by
`main`, each through attacks received, an attack made, potions, damage, healing and a
move. -/
theorem poison_persiste_witness :
    ({ Guerrier.new 10 10 with mEtat := Etat.EMPOISONNER,
                                mArme := some Arme.EpeeEmpoisonee } : Guerrier).histoire
        [GuerrierEvent.cible (Utilisable.sort {}),
          GuerrierEvent.appel (GuerrierOp.attaquer { mVie := 150 }),
          GuerrierEvent.appel (GuerrierOp.nourrir Consommable.PotionDeVie),
          GuerrierEvent.appel (GuerrierOp.prendreDommage 30),
          GuerrierEvent.appel (GuerrierOp.increaseVie 5),
          GuerrierEvent.appel (GuerrierOp.moveTo { x := 1, y := 2 }),
          GuerrierEvent.cible (Utilisable.arme Arme.EpeeEmpoisonee)]
      = .ok { mEtat := Etat.EMPOISONNER, mVie := 375, mPosition := { x := 1, y := 2 },
              mArme := some Arme.EpeeEmpoisonee } ∧
    ({ mEtat := Etat.EMPOISONNER, mVie := 50, mPosition := { x := 5, y := 5 },
        mMana := 40 } : Magicien).histoire
        [MagicienEvent.cible (Utilisable.arme Arme.EpeeEmpoisonee),
          MagicienEvent.appel (MagicienOp.attaquer { mVie := 500 }),
          MagicienEvent.appel (MagicienOp.nourrir Consommable.PotionDeMana),
          MagicienEvent.appel (MagicienOp.nourrir Consommable.PotionDeVie),
          MagicienEvent.cible (Utilisable.sort {})]
      = .ok { mEtat := Etat.EMPOISONNER, mVie := 0, mPosition := { x := 5, y := 5 },
              mMana := 40 } ∧
    Attaquable.getEtat { mEtat := Etat.EMPOISONNER, mVie := 375 } = Etat.EMPOISONNER ∧
    Attaquable.getEtat { mEtat := Etat.EMPOISONNER, mVie := 0 } = Etat.EMPOISONNER :=
  have h := poison_persiste
    { Guerrier.new 10 10 with mEtat := Etat.EMPOISONNER, mArme := some Arme.EpeeEmpoisonee }
    { mEtat := Etat.EMPOISONNER, mVie := 375, mPosition := { x := 1, y := 2 },
      mArme := some Arme.EpeeEmpoisonee }
    { mEtat := Etat.EMPOISONNER, mVie := 50, mPosition := { x := 5, y := 5 }, mMana := 40 }
    { mEtat := Etat.EMPOISONNER, mVie := 0, mPosition := { x := 5, y := 5 }, mMana := 40 }
    [GuerrierEvent.cible (Utilisable.sort {}),
      GuerrierEvent.appel (GuerrierOp.attaquer { mVie := 150 }),
      GuerrierEvent.appel (GuerrierOp.nourrir Consommable.PotionDeVie),
      GuerrierEvent.appel (GuerrierOp.prendreDommage 30),
      GuerrierEvent.appel (GuerrierOp.increaseVie 5),
      GuerrierEvent.appel (GuerrierOp.moveTo { x := 1, y := 2 }),
      GuerrierEvent.cible (Utilisable.arme Arme.EpeeEmpoisonee)]
    [MagicienEvent.cible (Utilisable.arme Arme.EpeeEmpoisonee),
      MagicienEvent.appel (MagicienOp.attaquer { mVie := 500 }),
      MagicienEvent.appel (MagicienOp.nourrir Consommable.PotionDeMana),
      MagicienEvent.appel (MagicienOp.nourrir Consommable.PotionDeVie),
      MagicienEvent.cible (Utilisable.sort {})]
    rfl rfl (by decide) (by decide) (by rfl) (by rfl)
  ⟨by rfl, by rfl, h.1.1, h.1.2⟩

/-! ## Frame of an attack between two characters -/

theorem personnage_setAttaquable_frame (c : Personnage) (a : Attaquable) :
    (c.setAttaquable a).position = c.position ∧ (c.setAttaquable a).mana = c.mana ∧
      (c.setAttaquable a).arme = c.arme := by
  cases c <;> exact ⟨rfl, rfl, rfl⟩

/-- C18: when a warrior attacks another character, the warrior is left unchanged in every
member (health, status, position, weapon); when a mage attacks another character, the
mage changes in its mana only, which drops by 10; in both cases the position of the
target, its mana and its weapon, when it has them, are unchanged. -/
theorem attaquer_frame (g g' : Guerrier) (m m' : Magicien)
    (cibleG cibleG' cibleM cibleM' : Personnage)
    (hg : g.attaquerPersonnage cibleG = .ok (g', cibleG'))
    (hm : m.attaquerPersonnage cibleM = .ok (m', cibleM')) :
    (g' = g ∧ cibleG'.position = cibleG.position ∧ cibleG'.mana = cibleG.mana ∧
        cibleG'.arme = cibleG.arme) ∧
      (m' = { m with mMana := m.mMana - 10 } ∧ cibleM'.position = cibleM.position ∧
        cibleM'.mana = cibleM.mana ∧ cibleM'.arme = cibleM.arme) := by
  constructor
  · unfold Guerrier.attaquerPersonnage at hg
    cases hc : g.attaquer cibleG.toAttaquable with
    | error e => rw [hc] at hg; cases hg
    | ok r =>
      obtain ⟨g1, a1⟩ := r
      rw [hc] at hg
      cases hg
      obtain ⟨rfl, -⟩ := guerrier_attaquer_eq_ok hc
      exact ⟨rfl, personnage_setAttaquable_frame cibleG a1⟩
  · unfold Magicien.attaquerPersonnage at hm
    cases hc : m.attaquer cibleM.toAttaquable with
    | error e => rw [hc] at hm; cases hm
    | ok r =>
      obtain ⟨m1, a1⟩ := r
      rw [hc] at hm
      cases hm
      obtain ⟨-, -, rfl, -⟩ := magicien_attaquer_eq_ok hc
      exact ⟨rfl, personnage_setAttaquable_frame cibleM a1⟩

/-- Instance of C18: the two attacks of `main`. -/
theorem attaquer_frame_witness :
    ({ Guerrier.new 10 10 with mArme := some Arme.EpeeEmpoisonee } : Guerrier).attaquerPersonnage
        (Personnage.magicien (Magicien.new 5 5))
      = .ok ({ Guerrier.new 10 10 with mArme := some Arme.EpeeEmpoisonee },
          Personnage.magicien
            { mEtat := Etat.EMPOISONNER, mVie := 50, mPosition := { x := 5, y := 5 } }) ∧
    ({ mEtat := Etat.EMPOISONNER, mVie := 50, mPosition := { x := 5, y := 5 } } :
        Magicien).attaquerPersonnage
        (Personnage.guerrier { Guerrier.new 10 10 with mArme := some Arme.EpeeEmpoisonee })
      = .ok ({ mEtat := Etat.EMPOISONNER, mVie := 50, mPosition := { x := 5, y := 5 },
               mMana := 40 },
          Personnage.guerrier
            { mVie := 490, mPosition := { x := 10, y := 10 },
              mArme := some Arme.EpeeEmpoisonee }) ∧
    Personnage.position (Personnage.magicien
        { mEtat := Etat.EMPOISONNER, mVie := 50, mPosition := { x := 5, y := 5 } })
      = Personnage.position (Personnage.magicien (Magicien.new 5 5)) ∧
    Personnage.mana (Personnage.magicien
        { mEtat := Etat.EMPOISONNER, mVie := 50, mPosition := { x := 5, y := 5 } })
      = Personnage.mana (Personnage.magicien (Magicien.new 5 5)) :=
  have h := attaquer_frame
    { Guerrier.new 10 10 with mArme := some Arme.EpeeEmpoisonee }
    { Guerrier.new 10 10 with mArme := some Arme.EpeeEmpoisonee }
    { mEtat := Etat.EMPOISONNER, mVie := 50, mPosition := { x := 5, y := 5 } }
    { mEtat := Etat.EMPOISONNER, mVie := 50, mPosition := { x := 5, y := 5 }, mMana := 40 }
    (Personnage.magicien (Magicien.new 5 5))
    (Personnage.magicien
      { mEtat := Etat.EMPOISONNER, mVie := 50, mPosition := { x := 5, y := 5 } })
    (Personnage.guerrier { Guerrier.new 10 10 with mArme := some Arme.EpeeEmpoisonee })
    (Personnage.guerrier
      { mVie := 490, mPosition := { x := 10, y := 10 }, mArme := some Arme.EpeeEmpoisonee })
    (by rfl) (by rfl)
  ⟨by rfl, by rfl, h.1.2.1, h.1.2.2.1⟩

/-! ## Repeated attacks of a mage -/

theorem magicien_attaquer_of_inInt (m : Magicien) (cible : Attaquable)
    (hmana : InInt (m.mMana - 10)) (hno : InInt (cible.mVie - 10)) :
    m.attaquer cible
      = .ok ({ m with mMana := m.mMana - 10 },
          { cible with mVie := max 0 (cible.mVie - 10) }) := by
  unfold Magicien.attaquer
  rw [checkedInt_of_inInt hmana]
  show (do
    let attaquable ← cible.prendreDommage 10
    pure (({ m with mMana := m.mMana - 10 } : Magicien), attaquable)) = _
  rw [prendreDommage_of_inInt cible 10 hno]
  rfl

theorem magicien_attaquerTous_eq (cibles : List Attaquable) :
    ∀ m : Magicien, m.mMana ≤ INT_MAX → INT_MIN ≤ m.mMana - 10 * (cibles.length : Int) →
      (∀ c ∈ cibles, InInt (c.mVie - 10)) →
      m.attaquerTous cibles
        = .ok ({ m with mMana := m.mMana - 10 * (cibles.length : Int) },
            cibles.map fun c => { c with mVie := max 0 (c.mVie - 10) }) := by
  induction cibles with
  | nil =>
    intro m _ _ _
    have h0 : m.mMana - 10 * ((([] : List Attaquable).length : Nat) : Int) = m.mMana := by
      simp
    rw [h0]
    rfl
  | cons c cs ih =>
    intro m hhi hlo hcs
    have hlen : (((c :: cs).length : Nat) : Int) = (cs.length : Int) + 1 := by
      simp
    rw [hlen] at hlo
    have hmana : InInt (m.mMana - 10) := by
      constructor <;> omega
    have hc : InInt (c.mVie - 10) := hcs c (List.mem_cons_self _ _)
    have hrec := ih { m with mMana := m.mMana - 10 } (by show m.mMana - 10 ≤ INT_MAX; omega)
      (by show INT_MIN ≤ m.mMana - 10 - 10 * (cs.length : Int); omega)
      (fun c' hc' => hcs c' (List.mem_cons_of_mem _ hc'))
    simp only [Magicien.attaquerTous]
    rw [magicien_attaquer_of_inInt m c hmana hc]
    show (do
      let r ← Magicien.attaquerTous { m with mMana := m.mMana - 10 } cs
      pure (r.1, ({ c with mVie := max 0 (c.mVie - 10) } : Attaquable) :: r.2)) = _
    rw [hrec]
    have hm : m.mMana - 10 - 10 * (cs.length : Int)
        = m.mMana - 10 * (((c :: cs).length : Nat) : Int) := by
      rw [hlen]
      omega
    show Except.ok _ = Except.ok _
    simp only [hm, List.map_cons]

/-- C17: a freshly constructed mage that attacks the targets of a list one after the
other, `n` attacks in all, ends with mana exactly `50 - 10 * n`, negative as soon as
`5 < n`, and every one of the attacks, whatever the mana at that point, has taken 10
from the health of its target (down to 0 at most); this as long as `50 - 10 * n` and
each `mVie - 10` are representable. -/
theorem magicien_attaques_sans_garde (x y : Int) (cibles : List Attaquable)
    (hmana : InInt (50 - 10 * (cibles.length : Int)))
    (hcibles : ∀ c ∈ cibles, InInt (c.mVie - 10)) :
    (Magicien.new x y).attaquerTous cibles
        = .ok ({ Magicien.new x y with mMana := 50 - 10 * (cibles.length : Int) },
            cibles.map fun c => { c with mVie := max 0 (c.mVie - 10) }) ∧
      (5 < cibles.length → 50 - 10 * (cibles.length : Int) < 0) := by
  refine ⟨?_, fun h5 => by omega⟩
  exact magicien_attaquerTous_eq cibles (Magicien.new x y)
    (show (50 : Int) ≤ INT_MAX by decide) hmana.1 hcibles

/-- Instance of C17: seven attacks by a new mage; the last two are made with mana 0 and
-10 and still take 10 from the health of their targets. -/
theorem magicien_attaques_sans_garde_witness :
    InInt (50 - 10 * 7) ∧
      (Magicien.new 5 5).attaquerTous
          [{ mVie := 500 }, { mVie := 490 }, { mVie := 480 }, { mVie := 470 },
            { mVie := 460 }, { mVie := 450 }, { mVie := 440 }]
        = .ok ({ Magicien.new 5 5 with mMana := -20 },
            [{ mVie := 490 }, { mVie := 480 }, { mVie := 470 }, { mVie := 460 },
              { mVie := 450 }, { mVie := 440 }, { mVie := 430 }]) :=
  ⟨by decide,
    (magicien_attaques_sans_garde 5 5
      [{ mVie := 500 }, { mVie := 490 }, { mVie := 480 }, { mVie := 470 },
        { mVie := 460 }, { mVie := 450 }, { mVie := 440 }]
      (by decide) (by decide)).1.trans (by rfl)⟩

end POO
